import Mathlib

/-!
Shallow embedding of `src/lib/recommendations.ts` (job-recommendation ranking).

Conventions of the embedding:
* JS numbers that carry scores are modelled as `ℚ` (all constants in the file,
  `0.05`, `0.2`, `0.5`, `20`, are exact decimals).
* Nullable / optional fields are `Option`; the `string | string[] | null | undefined`
  union for skills and needs is `StrOrList`.
* The dynamic (`any`-typed) metadata values are the small JSON-like type `JDyn`.
* The two external collaborators imported on line 2 of the source
  (`embedTexts`, `cosineSimilarity` from `./hfEmbeddings`, whose code is not in
  the repository) are fields of an `Env` record; the storage backend (supabase)
  is a `Db` record of oracle responses, and each `from(...).select(...)` of the
  source reads one field of it.
* Asynchronous `throw` / rejected promises are `Except RecError`.
-/

namespace Mine

/-- Error values: models thrown JS errors / rejected promises
(db errors, embedding-service failures, similarity failures). -/
inductive RecError where
  | db (msg : String)
  | embed (msg : String)
  | dimMismatch
  | typeError
deriving DecidableEq

/-- The `string | string[] | null | undefined` union used by the
`skills` and needs fields. `nothing` covers both `null` and `undefined`. -/
inductive StrOrList where
  | str (s : String)
  | list (l : List String)
  | nothing
deriving DecidableEq

/-- Source lines 12-16: `skillsToText`.
`Array.isArray` branch joins truthy (non-empty) elements with a single space;
string branch returns the string; otherwise empty string. -/
def skillsToText : StrOrList → String
  | .list l => String.intercalate " " (l.filter (fun s => !s.isEmpty))
  | .str s => s
  | .nothing => ""

/-- Source lines 26-30: `accessibilityNeedsToText`, same body as `skillsToText`. -/
def accessibilityNeedsToText : StrOrList → String
  | .list l => String.intercalate " " (l.filter (fun s => !s.isEmpty))
  | .str s => s
  | .nothing => ""

/-- Dynamic JSON-ish values reachable through the `any`-typed
`job_metadata` / `accessibility_features` fields. -/
inductive JDyn where
  | jundefined
  | jnull
  | jbool (b : Bool)
  | jnum (q : ℚ)
  | jstr (s : String)
  | jobj (fields : List (String × JDyn))

/-- JS truthiness for `JDyn` values. -/
def JDyn.truthy : JDyn → Bool
  | .jundefined => false
  | .jnull => false
  | .jbool b => b
  | .jnum q => q != 0
  | .jstr s => !s.isEmpty
  | .jobj _ => true

/-- The source's guard `v && typeof v === 'object'`: truthy and of object type.
Only `jobj` passes (`jnull` has object type but is falsy). -/
def JDyn.isTruthyObject : JDyn → Bool
  | .jobj _ => true
  | _ => false

/-- JS optional-chained property access `v?.[key]`-style read used by the source
(`meta?.accessibility_features`, `anyJob?.accessibility_features`): field of an
object, `undefined` on anything else or when the key is missing. -/
def JDyn.getField (v : JDyn) (key : String) : JDyn :=
  match v with
  | .jobj fields =>
    match fields.lookup key with
    | some x => x
    | none => .jundefined
  | _ => .jundefined

/-- `Object.entries(v)` filtered to truthy values, keeping keys in
insertion order (source lines 37-39 and 45-47 push `key` when `value` is truthy). -/
def JDyn.truthyKeys : JDyn → List String
  | .jobj fields => (fields.filter (fun kv => kv.2.truthy)).map (fun kv => kv.1)
  | _ => []

/-- Source lines 18-24: the `JobRow` record. `title`, `description`, `content`
are nullable/optional strings, `job_metadata` is `any`; the source also reads a
possible runtime column `accessibility_features` (line 43), kept here as a field
that is `jundefined` when the column was not selected. -/
structure JobRow where
  id : String
  title : Option String := none
  description : Option String := none
  content : Option String := none
  job_metadata : JDyn := .jundefined
  accessibility_features : JDyn := .jundefined

/-- Source lines 33-34: the nested feature location,
`((job && job.job_metadata) || {})?.accessibility_features`. -/
def metaAccessFeatures (job : JobRow) : JDyn :=
  (if job.job_metadata.truthy then job.job_metadata else JDyn.jobj []).getField
    "accessibility_features"

/-- Source lines 32-50: `jobAccessibilityToText`. -/
def jobAccessibilityToText (job : JobRow) : String :=
  let fromMetadata := metaAccessFeatures job
  let fromMeta := if fromMetadata.isTruthyObject then fromMetadata.truthyKeys else []
  let jobTableFeatures := job.accessibility_features
  let fromTable := if jobTableFeatures.isTruthyObject then jobTableFeatures.truthyKeys else []
  String.intercalate " " (fromMeta ++ fromTable)

/-- `String.toLower` (JS `.toLowerCase()`), written over the character list so
that it unfolds by structural recursion. -/
def lowerStr (s : String) : String :=
  ⟨s.data.map Char.toLower⟩

/-- JS `.trim()` (also `String.trim`): strip leading and trailing whitespace. -/
def trimStr (s : String) : String :=
  ⟨((s.data.dropWhile Char.isWhitespace).reverse.dropWhile Char.isWhitespace).reverse⟩

/-- Split at every character satisfying `p`; empty pieces appear between
consecutive separators. Every use site filters empty pieces out, which makes
this agree with the JS `split(/[...]+/).filter(Boolean)` idiom. -/
def splitChars (p : Char → Bool) : List Char → List (List Char)
  | [] => [[]]
  | c :: cs =>
    if p c then [] :: splitChars p cs
    else
      match splitChars p cs with
      | [] => [[c]]
      | g :: gs => (c :: g) :: gs

/-- String version of `splitChars`. -/
def splitStr (s : String) (p : Char → Bool) : List String :=
  (splitChars p s.data).map (fun cs => ⟨cs⟩)

/-- Does `needle` occur at the head of the haystack? -/
def startsWithChars : List Char → List Char → Bool
  | [], _ => true
  | _ :: _, [] => false
  | a :: as, b :: bs => a == b && startsWithChars as bs

/-- Does `needle` occur contiguously anywhere in the haystack? -/
def containsSubAux (needle : List Char) : List Char → Bool
  | [] => needle == []
  | c :: cs => startsWithChars needle (c :: cs) || containsSubAux needle cs

/-- JS `text.includes(pat)`: contiguous-substring containment
(true when `pat` is empty, as in JS). -/
def jsIncludes (text pat : String) : Bool :=
  containsSubAux pat.data text.data

/-- One step of the `for (const needRaw of needs)` loop of
`computeAccessibilityBoost` (source lines 57-72): classify a need by substring
containment and add its match credit to the accumulator. -/
def needMatchStep (enabled : List String) (acc : ℚ) (needRaw : String) : ℚ :=
  let need := lowerStr needRaw
  if need.isEmpty then acc
  else if jsIncludes need "visual" then
    if enabled.contains "screenreadersupport" || enabled.contains "screen_reader_support"
        || enabled.contains "assistivetechnology" then acc + 1 else acc
  else if jsIncludes need "hearing" then
    if enabled.contains "signlanguagesupport" then acc + 1 else acc
  else if jsIncludes need "mobility" then
    if enabled.contains "accessibleoffice" || enabled.contains "remotework" then acc + 1 else acc
  else if jsIncludes need "cognitive" then
    if enabled.contains "flexiblehours" || enabled.contains "remotework" then acc + 1 else acc
  else
    if enabled.length > 0 then acc + 0.5 else acc

/-- The lower-cased whitespace-token set of the job's accessibility text
(source line 54); a `List` models the `Set`, whose only uses are membership
and the emptiness test, both invariant under duplication. -/
def enabledTokens (job : JobRow) : List String :=
  ((splitStr (lowerStr (jobAccessibilityToText job)) (fun c => c.isWhitespace)).filter
    (fun s => !s.isEmpty))

/-- Source lines 52-76: `computeAccessibilityBoost`. -/
def computeAccessibilityBoost (needs : Option (List String)) (job : JobRow) : ℚ :=
  match needs with
  | none => 0
  | some l =>
    if l.length = 0 then 0
    else
      let enabled := enabledTokens job
      if enabled.length = 0 then 0
      else
        let matchCount := l.foldl (needMatchStep enabled) 0
        min 0.2 (matchCount * 0.05)

/-- The match count accumulated by the loop of `computeAccessibilityBoost`,
named so the final `min 0.2 (matchCount * 0.05)` formula can be stated; it is `0`
whenever either early return of the source fires. -/
def accessibilityMatchCount (needs : Option (List String)) (job : JobRow) : ℚ :=
  match needs with
  | none => 0
  | some l => l.foldl (needMatchStep (enabledTokens job)) 0

/-- Source lines 6-10: the `UserProfile` record.
`accessibility_needs` is typed `string[] | null` and optional. -/
structure UserProfile where
  id : String
  skills : StrOrList := .nothing
  accessibility_needs : Option (List String) := none

/-- Injection of the typed needs field into the argument union of
`accessibilityNeedsToText` (`string | string[] | null | undefined`). -/
def needsVal : Option (List String) → StrOrList
  | some l => .list l
  | none => .nothing

/-- JS `a || b` on a nullable string: `b` when `a` is `null`/`undefined`/empty. -/
def jsOr (a : Option String) (b : String) : String :=
  match a with
  | some s => if s.isEmpty then b else s
  | none => b

/-- The combined profile text
`` `${skillsToText(p.skills)} ${accessibilityNeedsToText(p.accessibility_needs)}`.trim() ``
(source lines 115 and 179). -/
def profileText (p : UserProfile) : String :=
  trimStr (skillsToText p.skills ++ " " ++ accessibilityNeedsToText (needsVal p.accessibility_needs))

/-- The combined job text
`` `${j.description || j.content || j.title || ''} ${jobAccessibilityToText(j)}`.trim() ``
(source lines 117 and 180). -/
def jobText (j : JobRow) : String :=
  trimStr (jsOr j.description (jsOr j.content (jsOr j.title "")) ++ " " ++ jobAccessibilityToText j)

/-- The candidate shape pushed by the bulk entry point (source line 135):
the job's id plus the combined score. -/
structure ScoredCandidate where
  jobId : String
  score : ℚ

/-- The candidate shape produced by the single-user entry point
(source lines 187 and 207): the whole job row plus the combined score. -/
structure ScoredJob where
  job : JobRow
  score : ℚ

/-- `scores.sort((a, b) => b.score - a.score)` (source lines 137, 190, 209):
JS `Array.prototype.sort` is stable (ECMAScript 2019), and the comparator is a
consistent descending order on exact rational scores, so the call is a stable
merge sort by non-increasing score. -/
def sortByScoreDesc (sc : α → ℚ) (l : List α) : List α :=
  l.mergeSort (fun a b => decide (sc b ≤ sc a))

/-- The keyword tokens of the profile (source lines 194-196): lower-cased
combined skills+needs text split on whitespace/comma/semicolon runs with empty
tokens dropped. -/
def keywordTokens (p : UserProfile) : List String :=
  ((splitStr
      (lowerStr (skillsToText p.skills ++ " "
        ++ accessibilityNeedsToText (needsVal p.accessibility_needs)))
      (fun c => c.isWhitespace || c == ',' || c == ';')).filter (fun s => !s.isEmpty))

/-- One job's keyword-fallback score (source lines 197-207): count of profile
tokens occurring as substrings of the lower-cased
description+content+title+accessibility text, plus the accessibility boost
scaled by 20. -/
def keywordScore (p : UserProfile) (j : JobRow) : ScoredJob :=
  let text := lowerStr ((j.description.getD "") ++ " " ++ (j.content.getD "") ++ " "
      ++ (j.title.getD "") ++ " " ++ jobAccessibilityToText j)
  let base : ℚ := (keywordTokens p).foldl
    (fun acc word => acc + (if jsIncludes text word then 1 else 0)) 0
  let boost := computeAccessibilityBoost p.accessibility_needs j * 20
  ⟨j, base + boost⟩

/-- The whole keyword-fallback scored list, one entry per job in input order. -/
def keywordScores (p : UserProfile) (jobs : List JobRow) : List ScoredJob :=
  jobs.map (keywordScore p)

/-- Modelled from the spec: the embedding and similarity collaborators are
imported from `./hfEmbeddings` (source line 2), whose code is not in the
repository; spec sections 4.3 and 6 give their contracts
(`embedTexts` returns one vector per input string in order; `cosineSimilarity`
fails fast on a vector-length mismatch). The orchestrators are parametric in
an `Env` holding the two collaborators. -/
structure Env where
  embedTexts : List String → Except RecError (List (List ℚ))
  cosineSimilarity : List ℚ → List ℚ → Except RecError ℚ

/-- The contract of spec section 6 for `embedTexts`:
one vector per input string. -/
def EmbedLenOk (env : Env) : Prop :=
  ∀ ts vs, env.embedTexts ts = .ok vs → vs.length = ts.length

/-- A row of the primary query `from('jobs').select('id, title, description')`
(source lines 89-92, 157-160): only those three columns are present. -/
structure JobsSelectRow where
  id : String
  title : Option String := none
  description : Option String := none

/-- The primary rows are used as `JobRow`s directly; the unselected fields are
absent (`none` / `jundefined`). -/
def JobsSelectRow.toJobRow (r : JobsSelectRow) : JobRow :=
  { id := r.id, title := r.title, description := r.description }

/-- A row of the fallback query
`from('posts').select('id, title, content, job_metadata').eq('is_job_post', true)`
(source lines 99-103, 166-170). -/
structure PostSelectRow where
  id : String
  title : Option String := none
  content : Option String := none
  job_metadata : JDyn := .jundefined

/-- The per-row mapping of source lines 105 and 172:
`{ id: p.id, title: p.title, content: p.content, job_metadata: p.job_metadata }`. -/
def PostSelectRow.toJobRow (p : PostSelectRow) : JobRow :=
  { id := p.id, title := p.title, content := p.content, job_metadata := p.job_metadata }

/-- The storage collaborator: each field is the `{ data, error }` outcome of the
corresponding supabase query. `.error e` models a non-null `error`;
`.ok none` a null/non-array `data` with no error; `.ok (some rows)` an array
`data`. -/
structure Db where
  profilesRes : Except RecError (Option (List UserProfile))
  profileById : String → Except RecError (Option UserProfile)
  jobsRes : Except RecError (Option (List JobsSelectRow))
  postsRes : Except RecError (Option (List PostSelectRow))

/-- The jobs-source selection with posts fallback. This block appears verbatim
twice in the source (lines 86-106 inside `fetchProfilesAndJobs` and lines
154-173 inside `computeRecommendationsForUser`); it is defined once here and
used by both. The primary result is kept iff there is no error and `data` is an
array (`!jobsError && Array.isArray(jobsData)`, lines 94, 162); otherwise the
posts query runs, a posts error propagates, and a null posts `data` becomes
`[]` (`postsData || []`). -/
def loadJobsWithFallback (db : Db) : Except RecError (List JobRow × Bool) :=
  match db.jobsRes with
  | .ok (some rows) => .ok (rows.map JobsSelectRow.toJobRow, false)
  | _ =>
    match db.postsRes with
    | .error e => .error e
    | .ok posts => .ok ((posts.getD []).map PostSelectRow.toJobRow, true)

/-- Source lines 78-109: `fetchProfilesAndJobs`. A profiles error propagates;
null profiles `data` becomes `[]` (`profiles || []`, line 108). -/
def fetchProfilesAndJobs (db : Db) :
    Except RecError (List UserProfile × List JobRow × Bool) :=
  match db.profilesRes with
  | .error e => .error e
  | .ok profiles =>
    match loadJobsWithFallback db with
    | .error e => .error e
    | .ok (jobs, usedPostsFallback) => .ok (profiles.getD [], jobs, usedPostsFallback)

/-- The inner loop of the bulk entry point (source lines 130-136): one
`ScoredCandidate` per job embedding, scored
`cosineSimilarity(pVec, jVec) + computeAccessibilityBoost(needs, job)` with the
job's id; a similarity error propagates (there is no catch in the bulk path).
The source indexes `jobs[jIdx]` and `jobIds[jIdx]` by the embedding index; the
two lists are walked together here, aligned per the `embedTexts` contract. -/
def bulkScoreRow (sim : List ℚ → List ℚ → Except RecError ℚ)
    (needs : Option (List String)) (pVec : List ℚ) :
    List (List ℚ) → List JobRow → Except RecError (List ScoredCandidate)
  | [], _ => .ok []
  | _, [] => .ok []
  | jVec :: jVecs, j :: js =>
    match sim pVec jVec with
    | .error e => .error e
    | .ok base =>
      match bulkScoreRow sim needs pVec jVecs js with
      | .error e => .error e
      | .ok rest => .ok (⟨j.id, base + computeAccessibilityBoost needs j⟩ :: rest)

/-- The outer loop of the bulk entry point (source lines 127-139): one
`(profileId, sorted-and-truncated scores)` entry per profile embedding, in
order (the JS result object keeps string keys in insertion order). -/
def bulkResults (sim : List ℚ → List ℚ → Except RecError ℚ) :
    List (List ℚ) → List UserProfile → List (List ℚ) → List JobRow → Nat →
    Except RecError (List (String × List ScoredCandidate))
  | [], _, _, _, _ => .ok []
  | _, [], _, _, _ => .ok []
  | pVec :: pVecs, p :: ps, jVecs, jobs, topN =>
    match bulkScoreRow sim p.accessibility_needs pVec jVecs jobs with
    | .error e => .error e
    | .ok scores =>
      match bulkResults sim pVecs ps jVecs jobs topN with
      | .error e => .error e
      | .ok rest =>
        .ok ((p.id, (sortByScoreDesc (fun c => c.score) scores).take topN) :: rest)

/-- The `{ results, usedPostsFallback }` value returned by the bulk entry
point. -/
structure BulkResult where
  results : List (String × List ScoredCandidate)
  usedPostsFallback : Bool

/-- Source lines 111-142: `computeRecommendationsForAllUsers`. Any error — db,
embedding, similarity — propagates; there is no keyword fallback in this path. -/
def computeRecommendationsForAllUsers (env : Env) (db : Db) (topN : Nat := 5) :
    Except RecError BulkResult :=
  match fetchProfilesAndJobs db with
  | .error e => .error e
  | .ok (profiles, jobs, usedPostsFallback) =>
    match env.embedTexts (profiles.map profileText) with
    | .error e => .error e
    | .ok pEmb =>
      match env.embedTexts (jobs.map jobText) with
      | .error e => .error e
      | .ok jEmb =>
        match bulkResults env.cosineSimilarity pEmb profiles jEmb jobs topN with
        | .error e => .error e
        | .ok results => .ok ⟨results, usedPostsFallback⟩

/-- Queries and embedding calls issued by the single-user entry point, in
order; used to state which collaborators a call touched. -/
inductive Effect where
  | queryProfile (userId : String)
  | queryJobs
  | queryPosts
  | embed
deriving DecidableEq

/-- The `{ results, usedPostsFallback }` value returned by the single-user
entry point; its candidates carry whole job rows (source lines 187, 207). -/
structure UserRankResult where
  results : List ScoredJob
  usedPostsFallback : Bool

/-- The `jobs.map((j, idx) => ...)` semantic scoring of the single-user path
(source lines 184-188): one `ScoredJob` per job, scored
`cosineSimilarity(profileVec, jobEmbeddings[idx]) + boost`, carrying the whole
job row. When the embeddings list is shorter than the jobs list,
`jobEmbeddings[idx]` is `undefined` and the similarity call throws, modelled as
`.error .typeError`. -/
def semanticScores (sim : List ℚ → List ℚ → Except RecError ℚ)
    (needs : Option (List String)) (pVec : List ℚ) :
    List JobRow → List (List ℚ) → Except RecError (List ScoredJob)
  | [], _ => .ok []
  | _ :: _, [] => .error .typeError
  | j :: js, jVec :: jVecs =>
    match sim pVec jVec with
    | .error e => .error e
    | .ok base =>
      match semanticScores sim needs pVec js jVecs with
      | .error e => .error e
      | .ok rest => .ok (⟨j, base + computeAccessibilityBoost needs j⟩ :: rest)

/-- The whole body of the `try` block of the single-user path (source lines
178-188): both embedding calls, then `profileVecArr[0]`, then the per-job
semantic scores. An empty profile-embedding array makes `profileVec` undefined
and the first similarity call throw, modelled as `.error .typeError`. -/
def semanticAttempt (env : Env) (profile : UserProfile) (jobs : List JobRow) :
    Except RecError (List ScoredJob) :=
  match env.embedTexts [profileText profile] with
  | .error e => .error e
  | .ok pArr =>
    match env.embedTexts (jobs.map jobText) with
    | .error e => .error e
    | .ok jEmb =>
      match pArr with
      | [] => .error .typeError
      | pVec :: _ =>
        semanticScores env.cosineSimilarity profile.accessibility_needs pVec jobs jEmb

/-- Ranking once the profile and job rows are in hand (source lines 175-211):
empty job list short-circuits before any embedding call; otherwise the semantic
attempt's result is sorted and truncated, and on any error of the attempt —
caught by the `catch` of line 192 — the keyword-fallback scores are sorted and
truncated instead. The accumulated effect log is returned alongside. -/
def rankLoadedJobs (env : Env) (profile : UserProfile) (jobs : List JobRow)
    (usedPostsFallback : Bool) (topN : Nat) (log : List Effect) :
    Except RecError UserRankResult × List Effect :=
  if jobs.isEmpty then (.ok ⟨[], usedPostsFallback⟩, log)
  else
    match semanticAttempt env profile jobs with
    | .ok scored =>
      (.ok ⟨(sortByScoreDesc (fun c => c.score) scored).take topN, usedPostsFallback⟩,
        log ++ [.embed])
    | .error _ =>
      (.ok ⟨(sortByScoreDesc (fun c => c.score) (keywordScores profile jobs)).take topN,
          usedPostsFallback⟩,
        log ++ [.embed])

/-- The storage queries the single-user entry point has issued by the time the
job rows are loaded: the profile query, the primary jobs query, and the posts
query only when the primary branch was rejected. -/
def userEffects (db : Db) (userId : String) : List Effect :=
  [.queryProfile userId, .queryJobs] ++
    (match db.jobsRes with
     | .ok (some _) => []
     | _ => [.queryPosts])

/-- Source lines 144-211: `computeRecommendationsForUser`. A profile-query
error propagates; a missing profile returns `{ results: [], usedPostsFallback:
false }` immediately (line 152); then the same jobs/posts selection as the bulk
path (the source repeats the block inline), and `rankLoadedJobs`. -/
def computeRecommendationsForUser (env : Env) (db : Db) (userId : String)
    (topN : Nat := 5) : Except RecError UserRankResult × List Effect :=
  match db.profileById userId with
  | .error e => (.error e, [.queryProfile userId])
  | .ok none => (.ok ⟨[], false⟩, [.queryProfile userId])
  | .ok (some profile) =>
    match loadJobsWithFallback db with
    | .error e => (.error e, userEffects db userId)
    | .ok (jobs, usedPostsFallback) =>
      rankLoadedJobs env profile jobs usedPostsFallback topN (userEffects db userId)

/-! ## Concrete collaborators and stores used in witnesses and counterexamples -/

/-- Modelled from the spec: `cosineSimilarity` of `./hfEmbeddings` is not in
the repository; section 4.3 requires it to fail fast when the two vectors
differ in length. This concrete collaborator obeys that contract; its value on
equal-length vectors is irrelevant to every statement using it and is fixed
at `0`. -/
def simFailFast : List ℚ → List ℚ → Except RecError ℚ := fun a b =>
  if a.length = b.length then .ok 0 else .error .dimMismatch

/-- An embedding service that is down: every call rejects. -/
def envDown : Env :=
  { embedTexts := fun _ => .error (.embed "service unavailable")
    cosineSimilarity := simFailFast }

/-- An embedding service returning one 1-dimensional vector per input. -/
def envOkOne : Env :=
  { embedTexts := fun ts => .ok (ts.map (fun _ => [1]))
    cosineSimilarity := simFailFast }

/-- An embedding service that answers both batch calls successfully but with
inconsistent dimensions: the profile batch (the one whose only text is `"go"`)
gets 1-dimensional vectors, every other batch 2-dimensional ones. -/
def envMismatch : Env :=
  { embedTexts := fun ts => if ts = ["go"] then .ok [[1]] else .ok (ts.map (fun _ => [1, 1]))
    cosineSimilarity := simFailFast }

/-- A job with accessibility features matching "visual" and "hearing" needs. -/
def jobVisual : JobRow :=
  { id := "k"
    job_metadata := .jobj [("accessibility_features",
      .jobj [("screenReaderSupport", .jbool true), ("signLanguageSupport", .jbool true)])] }

/-- A profile with skills `"python"` and no accessibility needs. -/
def profKW : UserProfile := { id := "u1", skills := .str "python" }

/-- A profile with skills `"go"` and no accessibility needs. -/
def profGo : UserProfile := { id := "u1", skills := .str "go" }

/-- A primary-source row with a title and description. -/
def rowT : JobsSelectRow := { id := "j1", title := some "T", description := some "python developer" }

/-- A primary-source row whose description mentions "go". -/
def rowGo : JobsSelectRow := { id := "j1", description := some "We need a go engineer" }

/-- A store with one profile and one primary job row. -/
def dbOneJob : Db :=
  { profilesRes := .ok (some [profKW])
    profileById := fun _ => .ok (some profKW)
    jobsRes := .ok (some [rowT])
    postsRes := .ok none }

/-- A store with the `"go"` profile and the `"go"` job row. -/
def dbGo : Db :=
  { profilesRes := .ok (some [profGo])
    profileById := fun _ => .ok (some profGo)
    jobsRes := .ok (some [rowGo])
    postsRes := .ok none }

/-- A store whose primary jobs query succeeds with zero rows, and whose posts
query would fail if it were ever issued. -/
def dbEmptyJobs : Db :=
  { profilesRes := .ok (some [])
    profileById := fun _ => .ok (some profGo)
    jobsRes := .ok (some [])
    postsRes := .error (.db "posts down") }

/-- A store with no stored profiles, whose job queries would both fail if they
were ever issued. -/
def dbNoProfile : Db :=
  { profilesRes := .ok (some [])
    profileById := fun _ => .ok none
    jobsRes := .error (.db "jobs down")
    postsRes := .error (.db "posts down") }

/-! ## Lemmas about the accessibility scorer -/

theorem needMatchStep_ge (enabled : List String) (acc : ℚ) (needRaw : String) :
    acc ≤ needMatchStep enabled acc needRaw := by
  simp only [needMatchStep]
  split_ifs <;> linarith

theorem foldl_needMatchStep_ge (enabled : List String) :
    ∀ (l : List String) (acc : ℚ), acc ≤ l.foldl (needMatchStep enabled) acc := by
  intro l
  induction l with
  | nil => intro acc; simp
  | cons a t ih =>
    intro acc
    calc acc ≤ needMatchStep enabled acc a := needMatchStep_ge enabled acc a
      _ ≤ t.foldl (needMatchStep enabled) (needMatchStep enabled acc a) := ih _
      _ = (a :: t).foldl (needMatchStep enabled) acc := by simp [List.foldl]

theorem needMatchStep_nil (acc : ℚ) (needRaw : String) :
    needMatchStep [] acc needRaw = acc := by
  simp only [needMatchStep]
  split_ifs <;> simp_all

theorem foldl_needMatchStep_nil :
    ∀ (l : List String) (acc : ℚ), l.foldl (needMatchStep []) acc = acc := by
  intro l
  induction l with
  | nil => intro acc; simp
  | cons a t ih => intro acc; simp [List.foldl, needMatchStep_nil, ih]

theorem accessibilityMatchCount_nonneg (needs : Option (List String)) (job : JobRow) :
    0 ≤ accessibilityMatchCount needs job := by
  cases needs with
  | none => simp [accessibilityMatchCount]
  | some l => exact foldl_needMatchStep_ge _ l 0

theorem computeAccessibilityBoost_eq_formula (needs : Option (List String)) (job : JobRow) :
    computeAccessibilityBoost needs job
      = min 0.2 (accessibilityMatchCount needs job * 0.05) := by
  cases needs with
  | none =>
    simp only [computeAccessibilityBoost, accessibilityMatchCount]
    norm_num
  | some l =>
    cases l with
    | nil =>
      simp only [computeAccessibilityBoost, accessibilityMatchCount, List.length_nil,
        List.foldl_nil, if_pos rfl]
      norm_num
    | cons a t =>
      simp only [computeAccessibilityBoost, accessibilityMatchCount]
      rw [if_neg (by simp)]
      by_cases hE : (enabledTokens job).length = 0
      · have hnil : enabledTokens job = [] := List.length_eq_zero.mp hE
        rw [if_pos hE, hnil, foldl_needMatchStep_nil]
        norm_num
      · rw [if_neg hE]

theorem computeAccessibilityBoost_nonneg (needs : Option (List String)) (job : JobRow) :
    0 ≤ computeAccessibilityBoost needs job := by
  rw [computeAccessibilityBoost_eq_formula]
  have h := accessibilityMatchCount_nonneg needs job
  have : (0 : ℚ) ≤ accessibilityMatchCount needs job * 0.05 := by nlinarith
  exact le_min (by norm_num) this

/-! ## Claim theorems: accessibility scorer -/

/-- C5: `computeAccessibilityBoost` returns `min(0.2, matchCount * 0.05)` where
`matchCount` is the credit accumulated by the category table of the source loop
(`accessibilityMatchCount`); the result lies in `[0, 0.2]` and is monotonically
non-decreasing in the match count. -/
theorem boost_formula_bounds_mono :
    ∀ (needs : Option (List String)) (job : JobRow),
      computeAccessibilityBoost needs job
          = min 0.2 (accessibilityMatchCount needs job * 0.05)
        ∧ 0 ≤ computeAccessibilityBoost needs job
        ∧ computeAccessibilityBoost needs job ≤ 0.2
        ∧ ∀ (needs' : Option (List String)) (job' : JobRow),
            accessibilityMatchCount needs job ≤ accessibilityMatchCount needs' job' →
            computeAccessibilityBoost needs job ≤ computeAccessibilityBoost needs' job' := by
  intro needs job
  refine ⟨computeAccessibilityBoost_eq_formula needs job,
    computeAccessibilityBoost_nonneg needs job, ?_, ?_⟩
  · rw [computeAccessibilityBoost_eq_formula]
    exact min_le_left _ _
  · intro needs' job' hle
    rw [computeAccessibilityBoost_eq_formula, computeAccessibilityBoost_eq_formula]
    have : accessibilityMatchCount needs job * 0.05
        ≤ accessibilityMatchCount needs' job' * 0.05 := by nlinarith
    exact min_le_min le_rfl this

/-- Witness for C5 at concrete inputs: adding a matched "hearing" need does not
decrease the boost, and the concrete values realize the formula and bounds. -/
theorem boost_formula_bounds_mono_witness :
    (computeAccessibilityBoost (some ["visual"]) jobVisual
        = min 0.2 (accessibilityMatchCount (some ["visual"]) jobVisual * 0.05)
      ∧ 0 ≤ computeAccessibilityBoost (some ["visual"]) jobVisual
      ∧ computeAccessibilityBoost (some ["visual"]) jobVisual ≤ 0.2)
    ∧ computeAccessibilityBoost (some ["visual"]) jobVisual
        ≤ computeAccessibilityBoost (some ["visual", "hearing"]) jobVisual := by
  have h := boost_formula_bounds_mono (some ["visual"]) jobVisual
  refine ⟨⟨h.1, h.2.1, h.2.2.1⟩, h.2.2.2 (some ["visual", "hearing"]) jobVisual ?_⟩
  have m1 : accessibilityMatchCount (some ["visual"]) jobVisual = 0 + 1 := rfl
  have m2 : accessibilityMatchCount (some ["visual", "hearing"]) jobVisual = 0 + 1 + 1 := rfl
  rw [m1, m2]
  norm_num

/-- C4: a primary-source job row (columns `id, title, description` only) has no
accessibility data: its accessibility text is empty and its boost is `0` for
every needs list. Consequently a non-zero boost can arise only for rows loaded
through the posts fallback, whose rows carry `job_metadata`. -/
theorem primary_rows_zero_boost :
    ∀ (row : JobsSelectRow) (needs : Option (List String)),
      jobAccessibilityToText row.toJobRow = ""
        ∧ computeAccessibilityBoost needs row.toJobRow = 0 := by
  intro row needs
  constructor
  · rfl
  · cases needs with
    | none => rfl
    | some l => cases l with
      | nil => rfl
      | cons a t => rfl

/-! ## Lemmas about the stable descending sort -/

theorem sortDesc_decide_trans (sc : α → ℚ) :
    ∀ (a b c : α), decide (sc b ≤ sc a) = true → decide (sc c ≤ sc b) = true →
      decide (sc c ≤ sc a) = true := by
  intro a b c hab hbc
  simp only [decide_eq_true_eq] at *
  exact le_trans hbc hab

theorem sortDesc_decide_total (sc : α → ℚ) :
    ∀ (a b : α), (decide (sc b ≤ sc a) || decide (sc a ≤ sc b)) = true := by
  intro a b
  simp only [Bool.or_eq_true, decide_eq_true_eq]
  exact le_total (sc b) (sc a)

theorem sortByScoreDesc_pairwise (sc : α → ℚ) (l : List α) :
    (sortByScoreDesc sc l).Pairwise (fun a b => sc b ≤ sc a) := by
  have h := @List.sorted_mergeSort _ (fun a b => decide (sc b ≤ sc a))
    (sortDesc_decide_trans sc) (sortDesc_decide_total sc) l
  exact h.imp (fun hab => of_decide_eq_true hab)

theorem sortByScoreDesc_perm (sc : α → ℚ) (l : List α) :
    List.Perm (sortByScoreDesc sc l) l :=
  List.mergeSort_perm l _

/-- Stability of the sort: the candidates of any fixed score appear in the
sorted list exactly as they appear in the input list. -/
theorem sortByScoreDesc_filter_eq (sc : α → ℚ) (l : List α) (s : ℚ) :
    (sortByScoreDesc sc l).filter (fun c => decide (sc c = s))
      = l.filter (fun c => decide (sc c = s)) := by
  simp only [sortByScoreDesc]
  have hpair : (l.filter (fun c => decide (sc c = s))).Pairwise
      (fun a b => decide (sc b ≤ sc a) = true) := by
    apply List.pairwise_of_forall_mem_list
    intro a ha b hb
    have ha' := (List.mem_filter.mp ha).2
    have hb' := (List.mem_filter.mp hb).2
    simp only [decide_eq_true_eq] at ha' hb' ⊢
    rw [ha', hb']
  have h1 : List.Sublist (l.filter (fun c => decide (sc c = s)))
      (List.mergeSort l (fun a b => decide (sc b ≤ sc a))) :=
    List.sublist_mergeSort (sortDesc_decide_trans sc) (sortDesc_decide_total sc) hpair
      (List.filter_sublist l)
  have h2 : (l.filter (fun c => decide (sc c = s))).filter (fun c => decide (sc c = s))
      = l.filter (fun c => decide (sc c = s)) :=
    List.filter_eq_self.mpr (fun a ha => (List.mem_filter.mp ha).2)
  have h3 : List.Sublist (l.filter (fun c => decide (sc c = s)))
      ((List.mergeSort l (fun a b => decide (sc b ≤ sc a))).filter
        (fun c => decide (sc c = s))) := by
    have := h1.filter (fun c => decide (sc c = s))
    rwa [h2] at this
  have h4 : List.Perm
      ((List.mergeSort l (fun a b => decide (sc b ≤ sc a))).filter
        (fun c => decide (sc c = s)))
      (l.filter (fun c => decide (sc c = s))) :=
    (List.mergeSort_perm l _).filter _
  exact (h3.eq_of_length h4.length_eq.symm).symm

theorem sortByScoreDesc_length (sc : α → ℚ) (l : List α) :
    (sortByScoreDesc sc l).length = l.length :=
  List.length_mergeSort l

/-! ## Structural lemmas about the scoring paths -/

theorem forall₂_mem_right {R : α → β → Prop} :
    ∀ {l₁ : List α} {l₂ : List β}, List.Forall₂ R l₁ l₂ →
      ∀ b ∈ l₂, ∃ a ∈ l₁, R a b := by
  intro l₁ l₂ h
  induction h with
  | nil => intro b hb; cases hb
  | cons hab _ ih =>
    intro b hb
    rcases List.mem_cons.mp hb with hb | hb
    · exact ⟨_, List.mem_cons_self _ _, hb ▸ hab⟩
    · obtain ⟨a, ha, har⟩ := ih b hb
      exact ⟨a, List.mem_cons_of_mem _ ha, har⟩

theorem keywordScores_forall₂ (p : UserProfile) :
    ∀ jobs, List.Forall₂ (fun j c => c.job = j) jobs (keywordScores p jobs) := by
  intro jobs
  induction jobs with
  | nil => exact List.Forall₂.nil
  | cons j js ih => exact List.Forall₂.cons rfl ih

theorem semanticScores_ok_forall₂
    (sim : List ℚ → List ℚ → Except RecError ℚ) (needs : Option (List String))
    (pVec : List ℚ) :
    ∀ (jobs : List JobRow) (jVecs : List (List ℚ)) (scored : List ScoredJob),
      semanticScores sim needs pVec jobs jVecs = .ok scored →
      List.Forall₂ (fun j c => c.job = j) jobs scored := by
  intro jobs
  induction jobs with
  | nil =>
    intro jVecs scored h
    cases jVecs <;> simp only [semanticScores] at h <;> cases h <;> exact List.Forall₂.nil
  | cons j js ih =>
    intro jVecs scored h
    cases jVecs with
    | nil => simp only [semanticScores] at h; cases h
    | cons v vs =>
      simp only [semanticScores] at h
      cases hs : sim pVec v with
      | error e => rw [hs] at h; cases h
      | ok base =>
        rw [hs] at h
        cases hr : semanticScores sim needs pVec js vs with
        | error e => rw [hr] at h; cases h
        | ok rest =>
          rw [hr] at h
          cases h
          exact List.Forall₂.cons rfl (ih vs rest hr)

theorem bulkScoreRow_ok_mem
    (sim : List ℚ → List ℚ → Except RecError ℚ) (needs : Option (List String))
    (pVec : List ℚ) :
    ∀ (jVecs : List (List ℚ)) (jobs : List JobRow) (scores : List ScoredCandidate),
      bulkScoreRow sim needs pVec jVecs jobs = .ok scores →
      ∀ c ∈ scores, ∃ j ∈ jobs, c.jobId = j.id := by
  intro jVecs
  induction jVecs with
  | nil =>
    intro jobs scores h c hc
    simp only [bulkScoreRow] at h
    cases h
    cases hc
  | cons v vs ih =>
    intro jobs scores h c hc
    cases jobs with
    | nil => simp only [bulkScoreRow] at h; cases h; cases hc
    | cons j js =>
      simp only [bulkScoreRow] at h
      cases hs : sim pVec v with
      | error e => rw [hs] at h; cases h
      | ok base =>
        rw [hs] at h
        cases hr : bulkScoreRow sim needs pVec vs js with
        | error e => rw [hr] at h; cases h
        | ok rest =>
          rw [hr] at h
          cases h
          rcases List.mem_cons.mp hc with hc | hc
          · exact ⟨j, List.mem_cons_self _ _, by rw [hc]⟩
          · obtain ⟨j', hj', hid⟩ := ih js rest hr c hc
            exact ⟨j', List.mem_cons_of_mem _ hj', hid⟩

theorem bulkScoreRow_ok_forall₂
    (sim : List ℚ → List ℚ → Except RecError ℚ) (needs : Option (List String))
    (pVec : List ℚ) :
    ∀ (jVecs : List (List ℚ)) (jobs : List JobRow) (scores : List ScoredCandidate),
      jVecs.length = jobs.length →
      bulkScoreRow sim needs pVec jVecs jobs = .ok scores →
      List.Forall₂ (fun j c => c.jobId = j.id) jobs scores := by
  intro jVecs
  induction jVecs with
  | nil =>
    intro jobs scores hlen h
    cases jobs with
    | nil => simp only [bulkScoreRow] at h; cases h; exact List.Forall₂.nil
    | cons j js => simp at hlen
  | cons v vs ih =>
    intro jobs scores hlen h
    cases jobs with
    | nil => simp at hlen
    | cons j js =>
      simp only [bulkScoreRow] at h
      cases hs : sim pVec v with
      | error e => rw [hs] at h; cases h
      | ok base =>
        rw [hs] at h
        cases hr : bulkScoreRow sim needs pVec vs js with
        | error e => rw [hr] at h; cases h
        | ok rest =>
          rw [hr] at h
          cases h
          exact List.Forall₂.cons rfl (ih js rest (by simpa using hlen) hr)

/-! ## Case-analysis lemmas for the two entry points -/

/-- Everything a successful single-user call can look like, by the branch
structure of the source. -/
theorem computeUser_ok_cases (env : Env) (db : Db) (userId : String) (topN : Nat)
    (r : UserRankResult) (log : List Effect) :
    computeRecommendationsForUser env db userId topN = (.ok r, log) →
    (db.profileById userId = .ok none ∧ r = ⟨[], false⟩)
      ∨ ∃ profile jobs fb, db.profileById userId = .ok (some profile)
          ∧ loadJobsWithFallback db = .ok (jobs, fb)
          ∧ r.usedPostsFallback = fb
          ∧ ((jobs = [] ∧ r.results = [])
              ∨ (jobs ≠ []
                  ∧ ((∃ scored, semanticAttempt env profile jobs = .ok scored
                        ∧ r.results = (sortByScoreDesc (fun c => c.score) scored).take topN)
                    ∨ (∃ e, semanticAttempt env profile jobs = .error e
                        ∧ r.results = (sortByScoreDesc (fun c => c.score)
                            (keywordScores profile jobs)).take topN)))) := by
  intro h
  cases hp : db.profileById userId with
  | error e =>
    simp only [computeRecommendationsForUser, hp] at h
    exact absurd h (by simp)
  | ok po =>
    cases po with
    | none =>
      simp only [computeRecommendationsForUser, hp] at h
      cases h
      exact Or.inl ⟨rfl, rfl⟩
    | some profile =>
      simp only [computeRecommendationsForUser, hp] at h
      cases hl : loadJobsWithFallback db with
      | error e =>
        simp only [hl] at h
        exact absurd h (by simp)
      | ok pair =>
        obtain ⟨jobs, fb⟩ := pair
        simp only [hl] at h
        refine Or.inr ⟨profile, jobs, fb, rfl, rfl, ?_⟩
        simp only [rankLoadedJobs] at h
        by_cases hj : jobs.isEmpty = true
        · rw [if_pos hj] at h
          cases h
          exact ⟨rfl, Or.inl ⟨List.isEmpty_iff.mp hj, rfl⟩⟩
        · rw [if_neg hj] at h
          cases ha : semanticAttempt env profile jobs with
          | ok scored =>
            rw [ha] at h
            cases h
            exact ⟨rfl, Or.inr ⟨fun hnil => hj (by simp [hnil]),
              Or.inl ⟨scored, rfl, rfl⟩⟩⟩
          | error e =>
            rw [ha] at h
            cases h
            exact ⟨rfl, Or.inr ⟨fun hnil => hj (by simp [hnil]),
              Or.inr ⟨e, rfl, rfl⟩⟩⟩

/-- Everything a successful bulk call can look like. -/
theorem computeBulk_ok_cases (env : Env) (db : Db) (topN : Nat) (r : BulkResult) :
    computeRecommendationsForAllUsers env db topN = .ok r →
    ∃ profiles jobs fb pEmb jEmb results,
      fetchProfilesAndJobs db = .ok (profiles, jobs, fb)
        ∧ env.embedTexts (profiles.map profileText) = .ok pEmb
        ∧ env.embedTexts (jobs.map jobText) = .ok jEmb
        ∧ bulkResults env.cosineSimilarity pEmb profiles jEmb jobs topN = .ok results
        ∧ r = ⟨results, fb⟩ := by
  intro h
  cases hf : fetchProfilesAndJobs db with
  | error e =>
    simp only [computeRecommendationsForAllUsers, hf] at h
    exact absurd h (by simp)
  | ok triple =>
    obtain ⟨profiles, jobs, fb⟩ := triple
    simp only [computeRecommendationsForAllUsers, hf] at h
    cases hpe : env.embedTexts (profiles.map profileText) with
    | error e =>
      simp only [hpe] at h
      exact absurd h (by simp)
    | ok pEmb =>
      simp only [hpe] at h
      cases hje : env.embedTexts (jobs.map jobText) with
      | error e =>
        simp only [hje] at h
        exact absurd h (by simp)
      | ok jEmb =>
        simp only [hje] at h
        cases hb : bulkResults env.cosineSimilarity pEmb profiles jEmb jobs topN with
        | error e =>
          simp only [hb] at h
          exact absurd h (by simp)
        | ok results =>
          simp only [hb] at h
          cases h
          exact ⟨profiles, jobs, fb, pEmb, jEmb, results, rfl, hpe, hje, hb, rfl⟩

/-- Each entry of a successful `bulkResults` is a sorted-and-truncated
`bulkScoreRow` for some profile embedding. -/
theorem bulkResults_ok_mem (sim : List ℚ → List ℚ → Except RecError ℚ) :
    ∀ (pVecs : List (List ℚ)) (profiles : List UserProfile) (jVecs : List (List ℚ))
      (jobs : List JobRow) (topN : Nat) (results : List (String × List ScoredCandidate)),
      bulkResults sim pVecs profiles jVecs jobs topN = .ok results →
      ∀ pid lst, (pid, lst) ∈ results →
        ∃ (pVec : List ℚ) (p : UserProfile) (scores : List ScoredCandidate),
          bulkScoreRow sim p.accessibility_needs pVec jVecs jobs = .ok scores
            ∧ pid = p.id ∧ lst = (sortByScoreDesc (fun c => c.score) scores).take topN := by
  intro pVecs
  induction pVecs with
  | nil =>
    intro profiles jVecs jobs topN results h pid lst hm
    simp only [bulkResults] at h
    cases h
    cases hm
  | cons pv pvs ih =>
    intro profiles jVecs jobs topN results h pid lst hm
    cases profiles with
    | nil => simp only [bulkResults] at h; cases h; cases hm
    | cons p ps =>
      simp only [bulkResults] at h
      cases hs : bulkScoreRow sim p.accessibility_needs pv jVecs jobs with
      | error e => rw [hs] at h; cases h
      | ok scores =>
        rw [hs] at h
        cases hr : bulkResults sim pvs ps jVecs jobs topN with
        | error e => rw [hr] at h; cases h
        | ok rest =>
          rw [hr] at h
          cases h
          rcases List.mem_cons.mp hm with hm | hm
          · injection hm with h1 h2
            exact ⟨pv, p, scores, hs, h1, h2⟩
          · exact ih ps jVecs jobs topN rest hr pid lst hm

/-- A successful loader outcome determines the jobs part of a successful
`fetchProfilesAndJobs`. -/
theorem fetch_ok_load (db : Db) (ps : List UserProfile) (jobs : List JobRow) (fb : Bool) :
    fetchProfilesAndJobs db = .ok (ps, jobs, fb) →
    loadJobsWithFallback db = .ok (jobs, fb) := by
  intro h
  rw [fetchProfilesAndJobs] at h
  cases hp : db.profilesRes with
  | error e => rw [hp] at h; cases h
  | ok profiles =>
    rw [hp] at h
    cases hl : loadJobsWithFallback db with
    | error e => rw [hl] at h; cases h
    | ok pair =>
      rw [hl] at h
      cases h
      rfl

theorem semanticAttempt_ok_forall₂ (env : Env) (profile : UserProfile)
    (jobs : List JobRow) (scored : List ScoredJob) :
    semanticAttempt env profile jobs = .ok scored →
    List.Forall₂ (fun j c => c.job = j) jobs scored := by
  intro h
  rw [semanticAttempt] at h
  cases he1 : env.embedTexts [profileText profile] with
  | error e => rw [he1] at h; cases h
  | ok pArr =>
    rw [he1] at h
    cases he2 : env.embedTexts (jobs.map jobText) with
    | error e => rw [he2] at h; cases h
    | ok jEmb =>
      rw [he2] at h
      cases pArr with
      | nil => cases h
      | cons pVec rest =>
        exact semanticScores_ok_forall₂ env.cosineSimilarity profile.accessibility_needs
          pVec jobs jEmb scored h

theorem mem_of_mem_sortTake (sc : α → ℚ) (l : List α) (n : Nat) (c : α) :
    c ∈ (sortByScoreDesc sc l).take n → c ∈ l := by
  intro h
  have h1 := List.mem_of_mem_take h
  simpa [sortByScoreDesc, List.mem_mergeSort] using h1

/-! ## Concrete evaluations used by witnesses -/

theorem embedLenOk_envOkOne : EmbedLenOk envOkOne := by
  intro ts vs h
  simp only [envOkOne] at h
  cases h
  simp

theorem semanticAttempt_envOkOne_eval :
    semanticAttempt envOkOne profKW [rowT.toJobRow] = .ok [⟨rowT.toJobRow, 0 + 0⟩] := rfl

theorem computeUser_envOkOne_eval :
    computeRecommendationsForUser envOkOne dbOneJob "u1" 5
      = (.ok ⟨[⟨rowT.toJobRow, 0⟩], false⟩, [.queryProfile "u1", .queryJobs, .embed]) := by
  have e1 : computeRecommendationsForUser envOkOne dbOneJob "u1" 5
      = (.ok ⟨(sortByScoreDesc (fun c => c.score) [⟨rowT.toJobRow, (0 : ℚ) + 0⟩]).take 5,
            false⟩,
          [.queryProfile "u1", .queryJobs, .embed]) := rfl
  rw [e1, show ((0 : ℚ) + 0) = 0 from by norm_num]
  have e2 : sortByScoreDesc (fun c : ScoredJob => c.score) [⟨rowT.toJobRow, (0 : ℚ)⟩]
      = [⟨rowT.toJobRow, 0⟩] := by simp [sortByScoreDesc]
  rw [e2]
  rfl

theorem computeBulk_envOkOne_eval :
    computeRecommendationsForAllUsers envOkOne dbOneJob 5
      = .ok ⟨[("u1", [⟨"j1", 0⟩])], false⟩ := by
  have e1 : computeRecommendationsForAllUsers envOkOne dbOneJob 5
      = .ok ⟨[("u1", (sortByScoreDesc (fun c => c.score) [⟨"j1", (0 : ℚ) + 0⟩]).take 5)],
          false⟩ := rfl
  rw [e1, show ((0 : ℚ) + 0) = 0 from by norm_num]
  have e2 : sortByScoreDesc (fun c : ScoredCandidate => c.score) [⟨"j1", (0 : ℚ)⟩]
      = [⟨"j1", 0⟩] := by simp [sortByScoreDesc]
  rw [e2]
  rfl

/-! ## Claim theorems: scoring-path structure -/

/-- C8 (as amended only in presentation): within one single-user ranking call
every returned candidate comes from one scoring path — the whole list is either
the sorted-truncated semantic scoring or the sorted-truncated keyword scoring.
The two paths are never blended inside one list (the catch recomputes the whole
list from scratch). -/
theorem one_scoring_path_per_call :
    ∀ (env : Env) (db : Db) (userId : String) (topN : Nat) (profile : UserProfile)
      (jobs : List JobRow) (fb : Bool) (r : UserRankResult) (log : List Effect),
      db.profileById userId = .ok (some profile) →
      loadJobsWithFallback db = .ok (jobs, fb) →
      computeRecommendationsForUser env db userId topN = (.ok r, log) →
      (jobs = [] ∧ r.results = [])
        ∨ (∃ scored, semanticAttempt env profile jobs = .ok scored
            ∧ r.results = (sortByScoreDesc (fun c => c.score) scored).take topN)
        ∨ (∃ e, semanticAttempt env profile jobs = .error e
            ∧ r.results = (sortByScoreDesc (fun c => c.score)
                (keywordScores profile jobs)).take topN) := by
  intro env db userId topN profile jobs fb r log hp hl h
  rcases computeUser_ok_cases env db userId topN r log h with
    ⟨hnone, _⟩ | ⟨p', jobs', fb', hp', hl', _, hcases⟩
  · rw [hp] at hnone; simp at hnone
  · rw [hp] at hp'
    injection hp' with hp''
    injection hp'' with hp'''
    subst hp'''
    rw [hl] at hl'
    injection hl' with hl''
    injection hl'' with hj'' hf''
    subst hj''
    rcases hcases with ⟨hj, hr⟩ | ⟨_, hsem | hkw⟩
    · exact Or.inl ⟨hj, hr⟩
    · exact Or.inr (Or.inl hsem)
    · exact Or.inr (Or.inr hkw)

/-- Witness for C8: a concrete call that takes the semantic path. -/
theorem one_scoring_path_per_call_witness :
    ([rowT.toJobRow] = [] ∧ ([⟨rowT.toJobRow, (0 : ℚ)⟩] : List ScoredJob) = [])
      ∨ (∃ scored, semanticAttempt envOkOne profKW [rowT.toJobRow] = .ok scored
          ∧ ([⟨rowT.toJobRow, (0 : ℚ)⟩] : List ScoredJob)
              = (sortByScoreDesc (fun c => c.score) scored).take 5)
      ∨ (∃ e, semanticAttempt envOkOne profKW [rowT.toJobRow] = .error e
          ∧ ([⟨rowT.toJobRow, (0 : ℚ)⟩] : List ScoredJob)
              = (sortByScoreDesc (fun c => c.score)
                  (keywordScores profKW [rowT.toJobRow])).take 5) :=
  one_scoring_path_per_call envOkOne dbOneJob "u1" 5 profKW [rowT.toJobRow] false
    ⟨[⟨rowT.toJobRow, 0⟩], false⟩ [.queryProfile "u1", .queryJobs, .embed]
    rfl rfl computeUser_envOkOne_eval

/-- C2 as amended: in the single-user path the keyword fallback is taken if
and only if some step inside the semantic `try` block fails — one of the two
`embedTexts` calls or the similarity computation — and no such error is ever
propagated to the caller. (The original claim held that only an `embedTexts`
failure triggers the fallback; the counterexample shows a similarity failure
does too.) -/
theorem keyword_fallback_iff_semantic_attempt_fails :
    ∀ (env : Env) (db : Db) (userId : String) (topN : Nat) (profile : UserProfile)
      (jobs : List JobRow) (fb : Bool),
      db.profileById userId = .ok (some profile) →
      loadJobsWithFallback db = .ok (jobs, fb) →
      jobs ≠ [] →
      (∀ scored, semanticAttempt env profile jobs = .ok scored →
          (computeRecommendationsForUser env db userId topN).1
            = .ok ⟨(sortByScoreDesc (fun c => c.score) scored).take topN, fb⟩)
        ∧ (∀ e, semanticAttempt env profile jobs = .error e →
            (computeRecommendationsForUser env db userId topN).1
              = .ok ⟨(sortByScoreDesc (fun c => c.score)
                  (keywordScores profile jobs)).take topN, fb⟩) := by
  intro env db userId topN profile jobs fb hp hl hne
  have hje : ¬ jobs.isEmpty = true := fun hh => hne (List.isEmpty_iff.mp hh)
  constructor
  · intro scored ha
    simp only [computeRecommendationsForUser, hp, hl, rankLoadedJobs, if_neg hje, ha]
  · intro e ha
    simp only [computeRecommendationsForUser, hp, hl, rankLoadedJobs, if_neg hje, ha]

/-- Witness for C2 as amended, at a concrete semantic-success call. -/
theorem keyword_fallback_iff_semantic_attempt_fails_witness :
    (∀ scored, semanticAttempt envOkOne profKW [rowT.toJobRow] = .ok scored →
        (computeRecommendationsForUser envOkOne dbOneJob "u1" 5).1
          = .ok ⟨(sortByScoreDesc (fun c => c.score) scored).take 5, false⟩)
      ∧ (∀ e, semanticAttempt envOkOne profKW [rowT.toJobRow] = .error e →
          (computeRecommendationsForUser envOkOne dbOneJob "u1" 5).1
            = .ok ⟨(sortByScoreDesc (fun c => c.score)
                (keywordScores profKW [rowT.toJobRow])).take 5, false⟩) :=
  keyword_fallback_iff_semantic_attempt_fails envOkOne dbOneJob "u1" 5 profKW
    [rowT.toJobRow] false rfl rfl (by simp)

/-- C3 as amended: the fallback-source flag is `true` iff the primary jobs
query did not succeed with a row list (it errored, or its data was not an
array); an empty row list from the primary source leaves the flag `false`.
The value is independent of the scoring path (it is fixed before the
`try`/`catch`, and the equivalence holds for every embedding/similarity
collaborator). -/
theorem fallback_flag_iff_primary_not_list :
    ∀ db : Db,
      (∀ (ps : List UserProfile) (jobs : List JobRow) (fb : Bool),
          fetchProfilesAndJobs db = .ok (ps, jobs, fb) →
          (fb = true ↔ ∀ rows, db.jobsRes ≠ .ok (some rows)))
        ∧ (∀ (env : Env) (userId : String) (topN : Nat) (profile : UserProfile)
            (r : UserRankResult) (log : List Effect),
            db.profileById userId = .ok (some profile) →
            computeRecommendationsForUser env db userId topN = (.ok r, log) →
            (r.usedPostsFallback = true ↔ ∀ rows, db.jobsRes ≠ .ok (some rows))) := by
  intro db
  have hload : ∀ (jobs : List JobRow) (fb : Bool),
      loadJobsWithFallback db = .ok (jobs, fb) →
      (fb = true ↔ ∀ rows, db.jobsRes ≠ .ok (some rows)) := by
    intro jobs fb hl
    cases hj : db.jobsRes with
    | error e =>
      simp only [loadJobsWithFallback, hj] at hl
      cases hpo : db.postsRes with
      | error e2 => rw [hpo] at hl; cases hl
      | ok posts =>
        rw [hpo] at hl
        cases hl
        constructor
        · intro _ rows hcontra
          cases hcontra
        · intro _; rfl
    | ok o =>
      cases o with
      | some rows =>
        simp only [loadJobsWithFallback, hj] at hl
        cases hl
        constructor
        · intro hfb; cases hfb
        · intro hall; exact (hall rows rfl).elim
      | none =>
        simp only [loadJobsWithFallback, hj] at hl
        cases hpo : db.postsRes with
        | error e2 => rw [hpo] at hl; cases hl
        | ok posts =>
          rw [hpo] at hl
          cases hl
          constructor
          · intro _ rows hcontra
            simp at hcontra
          · intro _; rfl
  constructor
  · intro ps jobs fb hf
    exact hload jobs fb (fetch_ok_load db ps jobs fb hf)
  · intro env userId topN profile r log hp h
    rcases computeUser_ok_cases env db userId topN r log h with
      ⟨hnone, _⟩ | ⟨p', jobs', fb', hp', hl', hflag, _⟩
    · rw [hp] at hnone; simp at hnone
    · rw [hflag]
      exact hload jobs' fb' hl'

/-- Witness for C3 as amended: a store whose primary query returns a row list
has flag `false`, and accordingly the right side of the equivalence fails. -/
theorem fallback_flag_iff_primary_not_list_witness :
    (false = true ↔ ∀ rows, dbGo.jobsRes ≠ .ok (some rows)) :=
  (fallback_flag_iff_primary_not_list dbGo).1 [profGo] [rowGo.toJobRow] false rfl

/-- C7: every ranked list has length `min topN numberOfJobs` — in particular
never more than `topN`. For the single-user path this holds for every
collaborator outcome (the keyword fallback also scores every job); for the
bulk path it holds for every embedding collaborator satisfying the
one-vector-per-input contract. -/
theorem ranked_list_length_min :
    (∀ (env : Env) (db : Db) (userId : String) (topN : Nat) (profile : UserProfile)
        (jobs : List JobRow) (fb : Bool) (r : UserRankResult) (log : List Effect),
        db.profileById userId = .ok (some profile) →
        loadJobsWithFallback db = .ok (jobs, fb) →
        computeRecommendationsForUser env db userId topN = (.ok r, log) →
        r.results.length = min topN jobs.length)
      ∧ (∀ (env : Env) (db : Db) (topN : Nat) (r : BulkResult) (jobs : List JobRow)
          (fb : Bool),
          EmbedLenOk env →
          loadJobsWithFallback db = .ok (jobs, fb) →
          computeRecommendationsForAllUsers env db topN = .ok r →
          ∀ pid lst, (pid, lst) ∈ r.results → lst.length = min topN jobs.length) := by
  constructor
  · intro env db userId topN profile jobs fb r log hp hl h
    rcases computeUser_ok_cases env db userId topN r log h with
      ⟨hnone, _⟩ | ⟨p', jobs', fb', hp', hl', _, hcases⟩
    · rw [hp] at hnone; simp at hnone
    · rw [hl] at hl'
      injection hl' with hl''
      injection hl'' with hj hf
      subst hj
      rcases hcases with ⟨hjnil, hres⟩ | ⟨hne, hsem | hkw⟩
      · subst hjnil
        rw [hres]
        simp
      · obtain ⟨scored, ha, hres⟩ := hsem
        have hlen : scored.length = jobs.length :=
          (semanticAttempt_ok_forall₂ env p' jobs scored ha).length_eq.symm
        rw [hres, List.length_take, sortByScoreDesc_length, hlen]
      · obtain ⟨e, ha, hres⟩ := hkw
        rw [hres, List.length_take, sortByScoreDesc_length]
        simp [keywordScores]
  · intro env db topN r jobs fb hEnv hl h
    obtain ⟨profiles, jobs', fb', pEmb, jEmb, results, hf, hpe, hje, hb, hr⟩ :=
      computeBulk_ok_cases env db topN r h
    have hl2 := fetch_ok_load db profiles jobs' fb' hf
    rw [hl] at hl2
    injection hl2 with hl3
    injection hl3 with hj hf'
    subst hj
    subst hr
    intro pid lst hm
    obtain ⟨pVec, p, scores, hs, hpid, hlst⟩ :=
      bulkResults_ok_mem env.cosineSimilarity pEmb profiles jEmb jobs topN results hb
        pid lst hm
    have hjlen : jEmb.length = jobs.length := by
      have := hEnv _ _ hje
      simpa using this
    have hfa := bulkScoreRow_ok_forall₂ env.cosineSimilarity p.accessibility_needs pVec
      jEmb jobs scores hjlen hs
    have hslen : scores.length = jobs.length := hfa.length_eq.symm
    rw [hlst, List.length_take, sortByScoreDesc_length, hslen]

/-- Witness for C7 at one job and the default `topN = 5`, on both entry
points: both ranked lists have length `min 5 1 = 1`. -/
theorem ranked_list_length_min_witness :
    ([⟨rowT.toJobRow, (0 : ℚ)⟩] : List ScoredJob).length = min 5 [rowT.toJobRow].length
      ∧ ([⟨"j1", (0 : ℚ)⟩] : List ScoredCandidate).length = min 5 [rowT.toJobRow].length :=
  ⟨ranked_list_length_min.1 envOkOne dbOneJob "u1" 5 profKW [rowT.toJobRow] false
      ⟨[⟨rowT.toJobRow, 0⟩], false⟩ [.queryProfile "u1", .queryJobs, .embed]
      rfl rfl computeUser_envOkOne_eval,
    ranked_list_length_min.2 envOkOne dbOneJob 5 ⟨[("u1", [⟨"j1", 0⟩])], false⟩
      [rowT.toJobRow] false embedLenOk_envOkOne rfl computeBulk_envOkOne_eval
      "u1" [⟨"j1", 0⟩] (by simp)⟩

theorem sortTake_filter_sublist (sc : α → ℚ) (l : List α) (n : Nat) (s : ℚ) :
    List.Sublist (((sortByScoreDesc sc l).take n).filter (fun c => decide (sc c = s)))
      (l.filter (fun c => decide (sc c = s))) := by
  have h1 := (List.take_sublist n (sortByScoreDesc sc l)).filter
    (fun c => decide (sc c = s))
  rwa [sortByScoreDesc_filter_eq] at h1

theorem sortTake_pairwise (sc : α → ℚ) (l : List α) (n : Nat) :
    ((sortByScoreDesc sc l).take n).Pairwise (fun a b => sc b ≤ sc a) :=
  List.Pairwise.sublist (List.take_sublist n _) (sortByScoreDesc_pairwise sc l)

/-- C6: every ranked list returned by either entry point, on any scoring path,
is sorted in non-increasing score order, and candidates of equal score keep
the relative order of the input job list: the returned list is a
sorted-truncated version of a scored list that is index-aligned with the input
jobs (`Forall₂`), and for each score value the returned candidates form a
sublist of that input-ordered scored list. -/
theorem ranked_lists_sorted_and_stable :
    (∀ (env : Env) (db : Db) (userId : String) (topN : Nat) (r : UserRankResult)
        (log : List Effect),
        computeRecommendationsForUser env db userId topN = (.ok r, log) →
        r.results.Pairwise (fun a b => b.score ≤ a.score)
          ∧ (r.results = []
              ∨ ∃ (jobs : List JobRow) (fb : Bool) (scored : List ScoredJob),
                  loadJobsWithFallback db = .ok (jobs, fb)
                    ∧ List.Forall₂ (fun j c => c.job = j) jobs scored
                    ∧ r.results = (sortByScoreDesc (fun c => c.score) scored).take topN
                    ∧ ∀ s : ℚ, List.Sublist
                        (r.results.filter (fun c => decide (c.score = s)))
                        (scored.filter (fun c => decide (c.score = s)))))
      ∧ (∀ (env : Env) (db : Db) (topN : Nat) (r : BulkResult), EmbedLenOk env →
          computeRecommendationsForAllUsers env db topN = .ok r →
          ∀ pid lst, (pid, lst) ∈ r.results →
            lst.Pairwise (fun a b => b.score ≤ a.score)
              ∧ ∃ (jobs : List JobRow) (fb : Bool) (scored : List ScoredCandidate),
                  loadJobsWithFallback db = .ok (jobs, fb)
                    ∧ List.Forall₂ (fun j c => c.jobId = j.id) jobs scored
                    ∧ lst = (sortByScoreDesc (fun c => c.score) scored).take topN
                    ∧ ∀ s : ℚ, List.Sublist
                        (lst.filter (fun c => decide (c.score = s)))
                        (scored.filter (fun c => decide (c.score = s)))) := by
  constructor
  · intro env db userId topN r log h
    rcases computeUser_ok_cases env db userId topN r log h with
      ⟨_, hres⟩ | ⟨p', jobs, fb, hp', hl, _, hcases⟩
    · subst hres
      exact ⟨List.Pairwise.nil, Or.inl rfl⟩
    · rcases hcases with ⟨hjnil, hres⟩ | ⟨hne, hsem | hkw⟩
      · refine ⟨?_, Or.inl hres⟩
        rw [hres]
        exact List.Pairwise.nil
      · obtain ⟨scored, ha, hres⟩ := hsem
        refine ⟨?_, Or.inr ⟨jobs, fb, scored, hl,
          semanticAttempt_ok_forall₂ env p' jobs scored ha, hres, ?_⟩⟩
        · rw [hres]; exact sortTake_pairwise _ _ _
        · intro s; rw [hres]; exact sortTake_filter_sublist _ _ _ _
      · obtain ⟨e, ha, hres⟩ := hkw
        refine ⟨?_, Or.inr ⟨jobs, fb, keywordScores p' jobs, hl,
          keywordScores_forall₂ p' jobs, hres, ?_⟩⟩
        · rw [hres]; exact sortTake_pairwise _ _ _
        · intro s; rw [hres]; exact sortTake_filter_sublist _ _ _ _
  · intro env db topN r hEnv h pid lst hm
    obtain ⟨profiles, jobs, fb, pEmb, jEmb, results, hf, hpe, hje, hb, hr⟩ :=
      computeBulk_ok_cases env db topN r h
    subst hr
    obtain ⟨pVec, p, scores, hs, hpid, hlst⟩ :=
      bulkResults_ok_mem env.cosineSimilarity pEmb profiles jEmb jobs topN results hb
        pid lst hm
    have hjlen : jEmb.length = jobs.length := by
      have := hEnv _ _ hje
      simpa using this
    have hfa := bulkScoreRow_ok_forall₂ env.cosineSimilarity p.accessibility_needs pVec
      jEmb jobs scores hjlen hs
    refine ⟨?_, jobs, fb, scores, fetch_ok_load db profiles jobs fb hf, hfa, hlst, ?_⟩
    · rw [hlst]; exact sortTake_pairwise _ _ _
    · intro s; rw [hlst]; exact sortTake_filter_sublist _ _ _ _

/-- Witness for C6 at one job on both entry points. -/
theorem ranked_lists_sorted_and_stable_witness :
    (([⟨rowT.toJobRow, (0 : ℚ)⟩] : List ScoredJob).Pairwise (fun a b => b.score ≤ a.score)
        ∧ (([⟨rowT.toJobRow, (0 : ℚ)⟩] : List ScoredJob) = []
            ∨ ∃ (jobs : List JobRow) (fb : Bool) (scored : List ScoredJob),
                loadJobsWithFallback dbOneJob = .ok (jobs, fb)
                  ∧ List.Forall₂ (fun j c => c.job = j) jobs scored
                  ∧ ([⟨rowT.toJobRow, (0 : ℚ)⟩] : List ScoredJob)
                      = (sortByScoreDesc (fun c => c.score) scored).take 5
                  ∧ ∀ s : ℚ, List.Sublist
                      (([⟨rowT.toJobRow, (0 : ℚ)⟩] : List ScoredJob).filter
                        (fun c => decide (c.score = s)))
                      (scored.filter (fun c => decide (c.score = s)))))
      ∧ (([⟨"j1", (0 : ℚ)⟩] : List ScoredCandidate).Pairwise (fun a b => b.score ≤ a.score)
          ∧ ∃ (jobs : List JobRow) (fb : Bool) (scored : List ScoredCandidate),
              loadJobsWithFallback dbOneJob = .ok (jobs, fb)
                ∧ List.Forall₂ (fun j c => c.jobId = j.id) jobs scored
                ∧ ([⟨"j1", (0 : ℚ)⟩] : List ScoredCandidate)
                    = (sortByScoreDesc (fun c => c.score) scored).take 5
                ∧ ∀ s : ℚ, List.Sublist
                    (([⟨"j1", (0 : ℚ)⟩] : List ScoredCandidate).filter
                      (fun c => decide (c.score = s)))
                    (scored.filter (fun c => decide (c.score = s)))) :=
  ⟨ranked_lists_sorted_and_stable.1 envOkOne dbOneJob "u1" 5
      ⟨[⟨rowT.toJobRow, 0⟩], false⟩ [.queryProfile "u1", .queryJobs, .embed]
      computeUser_envOkOne_eval,
    ranked_lists_sorted_and_stable.2 envOkOne dbOneJob 5 ⟨[("u1", [⟨"j1", 0⟩])], false⟩
      embedLenOk_envOkOne computeBulk_envOkOne_eval "u1" [⟨"j1", 0⟩] (by simp)⟩

/-- C1 as amended: only the bulk entry point returns `{ jobId, score }`
candidates (each carrying the id of one of the loaded jobs); the single-user
entry point returns `{ job, score }` candidates carrying a whole loaded job
row on both scoring paths. -/
theorem scored_candidate_shapes :
    (∀ (env : Env) (db : Db) (topN : Nat) (r : BulkResult),
        computeRecommendationsForAllUsers env db topN = .ok r →
        ∀ pid lst, (pid, lst) ∈ r.results → ∀ c ∈ lst,
          ∃ (jobs : List JobRow) (fb : Bool), loadJobsWithFallback db = .ok (jobs, fb)
            ∧ ∃ j ∈ jobs, c.jobId = j.id)
      ∧ (∀ (env : Env) (db : Db) (userId : String) (topN : Nat) (r : UserRankResult)
          (log : List Effect),
          computeRecommendationsForUser env db userId topN = (.ok r, log) →
          ∀ c ∈ r.results,
            ∃ (jobs : List JobRow) (fb : Bool), loadJobsWithFallback db = .ok (jobs, fb)
              ∧ c.job ∈ jobs) := by
  constructor
  · intro env db topN r h pid lst hm c hc
    obtain ⟨profiles, jobs, fb, pEmb, jEmb, results, hf, hpe, hje, hb, hr⟩ :=
      computeBulk_ok_cases env db topN r h
    subst hr
    obtain ⟨pVec, p, scores, hs, hpid, hlst⟩ :=
      bulkResults_ok_mem env.cosineSimilarity pEmb profiles jEmb jobs topN results hb
        pid lst hm
    rw [hlst] at hc
    have hc' := mem_of_mem_sortTake _ _ _ _ hc
    obtain ⟨j, hj, hid⟩ := bulkScoreRow_ok_mem env.cosineSimilarity p.accessibility_needs
      pVec jEmb jobs scores hs c hc'
    exact ⟨jobs, fb, fetch_ok_load db profiles jobs fb hf, j, hj, hid⟩
  · intro env db userId topN r log h c hc
    rcases computeUser_ok_cases env db userId topN r log h with
      ⟨_, hres⟩ | ⟨p', jobs, fb, hp', hl, _, hcases⟩
    · subst hres; cases hc
    · rcases hcases with ⟨hjnil, hres⟩ | ⟨hne, hsem | hkw⟩
      · rw [hres] at hc; cases hc
      · obtain ⟨scored, ha, hres⟩ := hsem
        rw [hres] at hc
        have hc' := mem_of_mem_sortTake _ _ _ _ hc
        obtain ⟨j, hj, hcj⟩ :=
          forall₂_mem_right (semanticAttempt_ok_forall₂ env p' jobs scored ha) c hc'
        exact ⟨jobs, fb, hl, hcj ▸ hj⟩
      · obtain ⟨e, ha, hres⟩ := hkw
        rw [hres] at hc
        have hc' := mem_of_mem_sortTake _ _ _ _ hc
        obtain ⟨j, hj, hcj⟩ :=
          forall₂_mem_right (keywordScores_forall₂ p' jobs) c hc'
        exact ⟨jobs, fb, hl, hcj ▸ hj⟩

/-- Witness for C1 as amended, at one job on both entry points. -/
theorem scored_candidate_shapes_witness :
    (∀ pid lst, (pid, lst) ∈ [("u1", ([⟨"j1", (0 : ℚ)⟩] : List ScoredCandidate))] →
        ∀ c ∈ lst,
          ∃ (jobs : List JobRow) (fb : Bool), loadJobsWithFallback dbOneJob = .ok (jobs, fb)
            ∧ ∃ j ∈ jobs, c.jobId = j.id)
      ∧ (∀ c ∈ ([⟨rowT.toJobRow, (0 : ℚ)⟩] : List ScoredJob),
          ∃ (jobs : List JobRow) (fb : Bool), loadJobsWithFallback dbOneJob = .ok (jobs, fb)
            ∧ c.job ∈ jobs) :=
  ⟨scored_candidate_shapes.1 envOkOne dbOneJob 5 ⟨[("u1", [⟨"j1", 0⟩])], false⟩
      computeBulk_envOkOne_eval,
    scored_candidate_shapes.2 envOkOne dbOneJob "u1" 5 ⟨[⟨rowT.toJobRow, 0⟩], false⟩
      [.queryProfile "u1", .queryJobs, .embed] computeUser_envOkOne_eval⟩

/-! ## Claim theorems: missing profile, normalizer totality -/

/-- C9: a userId with no stored profile yields
`{ results: [], usedPostsFallback: false }` without an error, and the only
collaborator touched is the profile query — neither job source nor the
embedding service is consulted (the effect log records exactly one query). -/
theorem missing_profile_empty_no_queries :
    ∀ (env : Env) (db : Db) (userId : String) (topN : Nat),
      db.profileById userId = .ok none →
      computeRecommendationsForUser env db userId topN
        = (.ok ⟨[], false⟩, [.queryProfile userId]) := by
  intro env db userId topN h
  simp [computeRecommendationsForUser, h]

/-- Witness for C9 at a concrete store whose job queries would both fail were
they issued: they are never reached. -/
theorem missing_profile_empty_no_queries_witness :
    computeRecommendationsForUser envDown dbNoProfile "ghost" 5
      = (.ok ⟨[], false⟩, [.queryProfile "ghost"]) :=
  missing_profile_empty_no_queries envDown dbNoProfile "ghost" 5 rfl

/-- C10: the text normalizers are total with the documented shapes — a list
joins its non-empty elements with single spaces, a string passes through,
null/absent input yields `""` — and `jobAccessibilityToText` yields `""`
(rather than failing) whenever both feature locations (the nested
`job_metadata.accessibility_features` and the top-level
`accessibility_features`) are absent or not objects. -/
theorem normalizers_total_and_shaped :
    (∀ l, skillsToText (.list l) = String.intercalate " " (l.filter (fun s => !s.isEmpty)))
      ∧ (∀ s, skillsToText (.str s) = s)
      ∧ skillsToText .nothing = ""
      ∧ (∀ l, accessibilityNeedsToText (.list l)
          = String.intercalate " " (l.filter (fun s => !s.isEmpty)))
      ∧ (∀ s, accessibilityNeedsToText (.str s) = s)
      ∧ accessibilityNeedsToText .nothing = ""
      ∧ (∀ job : JobRow, (metaAccessFeatures job).isTruthyObject = false →
          job.accessibility_features.isTruthyObject = false →
          jobAccessibilityToText job = "") := by
  refine ⟨fun l => rfl, fun s => rfl, rfl, fun l => rfl, fun s => rfl, rfl, ?_⟩
  intro job h1 h2
  simp only [jobAccessibilityToText, h1, h2, Bool.false_eq_true, if_false, List.nil_append]
  rfl

/-- Witness for C10: a primary-source row has both feature locations absent and
an empty accessibility text. -/
theorem normalizers_total_and_shaped_witness :
    jobAccessibilityToText rowT.toJobRow = "" :=
  normalizers_total_and_shaped.2.2.2.2.2.2 rowT.toJobRow rfl rfl

/-! ## Counterexamples -/

/-- C1 is false for the single-user entry point: on a concrete run its
returned candidate is `{ job, score }` carrying the entire job row — title and
description included — not `{ jobId, score }` with just the id. (The bulk
entry point does return `{ jobId, score }`; see the amended statement.) -/
theorem single_user_results_carry_whole_job_row :
    (computeRecommendationsForUser envDown dbOneJob "u1" 5).1
      = .ok ⟨[⟨⟨"j1", some "T", some "python developer", none, .jundefined, .jundefined⟩, 1⟩],
          false⟩ := by
  have e1 : (computeRecommendationsForUser envDown dbOneJob "u1" 5).1
      = .ok ⟨(sortByScoreDesc (fun c => c.score)
            (keywordScores profKW [rowT.toJobRow])).take 5, false⟩ := rfl
  have e2 : keywordScores profKW [rowT.toJobRow]
      = [⟨rowT.toJobRow, 0 + 1 + 0 * 20⟩] := rfl
  have e3 : (0 : ℚ) + 1 + 0 * 20 = 1 := by norm_num
  have e4 : sortByScoreDesc (fun c : ScoredJob => c.score) [⟨rowT.toJobRow, (1 : ℚ)⟩]
      = [⟨rowT.toJobRow, 1⟩] := by simp [sortByScoreDesc]
  rw [e1, e2, e3, e4]
  rfl

/-- C2 is false: on a concrete run both `embedTexts` calls succeed, yet the
keyword fallback is taken, because the similarity computation inside the same
`try` block fails (vector-length mismatch, which the spec's section 4.3
requires to fail fast). The fallback is thus not triggered exclusively by
embedding failure. -/
theorem fallback_taken_on_similarity_error :
    envMismatch.embedTexts [profileText profGo] = .ok [[1]]
      ∧ envMismatch.embedTexts ([rowGo.toJobRow].map jobText) = .ok [[1, 1]]
      ∧ semanticAttempt envMismatch profGo [rowGo.toJobRow] = .error .dimMismatch
      ∧ (computeRecommendationsForUser envMismatch dbGo "u1" 5).1
          = .ok ⟨[⟨⟨"j1", none, some "We need a go engineer", none, .jundefined, .jundefined⟩, 1⟩],
              false⟩ := by
  refine ⟨rfl, rfl, rfl, ?_⟩
  have e1 : (computeRecommendationsForUser envMismatch dbGo "u1" 5).1
      = .ok ⟨(sortByScoreDesc (fun c => c.score)
            (keywordScores profGo [rowGo.toJobRow])).take 5, false⟩ := rfl
  have e2 : keywordScores profGo [rowGo.toJobRow]
      = [⟨rowGo.toJobRow, 0 + 1 + 0 * 20⟩] := rfl
  have e3 : (0 : ℚ) + 1 + 0 * 20 = 1 := by norm_num
  have e4 : sortByScoreDesc (fun c : ScoredJob => c.score) [⟨rowGo.toJobRow, (1 : ℚ)⟩]
      = [⟨rowGo.toJobRow, 1⟩] := by simp [sortByScoreDesc]
  rw [e1, e2, e3, e4]
  rfl

/-- C3 is false: on a concrete run the primary jobs query succeeds with an
empty row list, and both the loader and the single-user entry point return
`usedPostsFallback = false` — the posts fallback is not taken for an empty
primary result (the source only falls back when the primary query errors or
its data is not an array). -/
theorem empty_primary_rows_leave_flag_false :
    dbEmptyJobs.jobsRes = .ok (some [])
      ∧ (computeRecommendationsForUser envDown dbEmptyJobs "u1" 5).1 = .ok ⟨[], false⟩
      ∧ fetchProfilesAndJobs dbEmptyJobs = .ok ([], [], false) :=
  ⟨rfl, rfl, rfl⟩

end Mine
